import Mathlib

/-!
Verification development for the dispersed-api campsite service.

This file gives a shallow embedding of the review-aggregation subsystem
(routes/reviews: POST, GET, PUT, flag on /api/campsites/:id/reviews) and of
the campsite search pipeline (functions/routes/search.js), together with
theorems checking the natural-language specification against that code.

Modelling conventions:
- Firestore documents become Lean structures; collections become lists.
- JavaScript numbers appearing in review logic are modelled as rationals
  (`ℚ`); `Number.isInteger(x)` becomes `x.den == 1`.
- JavaScript truthiness is modelled explicitly: an absent (`undefined`) or
  `null` value is `none`, and a present value `x` is truthy iff it is not
  `0` / the empty string.
- `serverTimestamp()` is modelled by an explicit `now : Int` parameter
  (milliseconds), mirroring `Date.now()` used by the rate limiter.
- `toFixed(2)` followed by `parseFloat` is modelled by `round2` (round half
  away from zero at two decimals; all rounded values here are nonnegative).
- Reads inside a Firestore transaction observe the state committed before
  the transaction; buffered transaction writes are applied when the
  transaction commits.  The arithmetic in the source (adding the new rating
  by hand and skipping `doc.id === reviewId`) is written against exactly
  this snapshot semantics.
-/

deriving instance DecidableEq for Except

namespace DispersedApi

/-- Truthiness of an optional string, as JavaScript `if (s)`. -/
def truthyS : Option String → Bool
  | none => false
  | some s => s != ""

/-- Length of an optional string, 0 when absent. -/
def commentLen : Option String → Nat
  | none => 0
  | some s => s.length

/-- JavaScript `Number.isInteger` on a rational. -/
def jsIsInteger (q : ℚ) : Bool := q.den == 1

/-- ASCII whitespace, for the model of `String.prototype.trim`. -/
def jsWs (c : Char) : Bool := c == ' ' || c == '\t' || c == '\n' || c == '\r'

/-- JavaScript `s.trim()`: strip leading and trailing whitespace. -/
def jsTrim (s : String) : String :=
  ⟨((s.data.dropWhile jsWs).reverse.dropWhile jsWs).reverse⟩

/-- JavaScript `s.toLowerCase()` (ASCII case folding). -/
def jsToLower (s : String) : String := ⟨s.data.map Char.toLower⟩

/-- Model of `parseFloat(x.toFixed(2))`: round to two decimal places. -/
def round2 (q : ℚ) : ℚ := ((q * 100 + 1/2).floor : ℚ) / 100

/-- The rating guard of `POST /:id/reviews`:
`!rating || !Number.isInteger(rating) || rating < 1 || rating > 5`. -/
def ratingInvalid : Option ℚ → Bool
  | none => true
  | some q => q == 0 || !jsIsInteger q || decide (q < 1) || decide (q > 5)

/-- The rating guard of `PUT /:id/reviews/:reviewId`:
`rating && (!Number.isInteger(rating) || rating < 1 || rating > 5)`.
A falsy supplied rating (0) skips the guard entirely. -/
def putRatingInvalid : Option ℚ → Bool
  | none => false
  | some q => q != 0 && (!jsIsInteger q || decide (q < 1) || decide (q > 5))

/-- A flag record stored on a review document. -/
structure Flag where
  userId : Nat
  reason : String
  timestamp : Int
deriving DecidableEq

/-- A document of the `reviews` collection. -/
structure Review where
  id : Nat
  campsiteId : Nat
  userId : Option Nat
  ipAddress : Option String
  rating : ℚ
  comment : Option String
  flagCount : Nat
  flags : List Flag
  hidden : Bool
  createdAt : Int
  updatedAt : Int
deriving DecidableEq

/-- A document of the `campsites` collection, restricted to the fields the
review routes read or write. -/
structure Site where
  id : Nat
  averageRating : Option ℚ
  reviewCount : Option Nat
  updatedAt : Int
deriving DecidableEq

/-- A document of the `ratingLimits` collection (anonymous rate limiting). -/
structure RateLimitEntry where
  ipAddress : String
  campsiteId : Nat
  timestamp : Int
deriving DecidableEq

/-- The document store as seen by the review routes. -/
structure DB where
  sites : List Site
  reviews : List Review
  ratingLimits : List RateLimitEntry
deriving DecidableEq

/-- Error outcomes of the review routes (non-2xx responses). -/
inductive ReviewError where
  | invalidRating
  | commentRequiresIdentity
  | commentTooLong
  | siteNotFound
  | rateLimited
  | reviewNotFound
  | forbidden
  | wrongCampsite
  | reasonRequired
  | alreadyFlagged
deriving DecidableEq

/-- Success payload of `POST /:id/reviews`. -/
structure SubmitResult where
  reviewId : Nat
  isUpdate : Bool
deriving DecidableEq

/-- `db.collection('campsites').doc(campsiteId).get()`. -/
def findSite (db : DB) (campsiteId : Nat) : Option Site :=
  db.sites.find? (fun s => s.id == campsiteId)

/-- The query `reviews.where('campsiteId','==',cid).where('hidden','==',false)`. -/
def nonHiddenFor (db : DB) (campsiteId : Nat) : List Review :=
  db.reviews.filter (fun r => r.campsiteId == campsiteId && !r.hidden)

/-- Sum of the `rating` fields of a list of reviews. -/
def sumRatings (l : List Review) : ℚ := (l.map (fun r => r.rating)).sum

/-- 24 hours in milliseconds (`24 * 60 * 60 * 1000`). -/
def msPerDay : Int := 86400000

/-- The anonymous rate-limit query: an entry with this origin address and
campsite whose timestamp is strictly newer than `now - 24h`. -/
def rateLimitHit (db : DB) (campsiteId : Nat) (ipAddress : String) (now : Int) : Bool :=
  db.ratingLimits.any (fun e =>
    e.ipAddress == ipAddress && e.campsiteId == campsiteId &&
      decide (e.timestamp > now - msPerDay))

/-- `POST /api/campsites/:id/reviews` (routes/reviews).  Validates the
rating and comment, checks the campsite, rate-limits anonymous callers,
upserts the review keyed by `(campsiteId, userId)` for identified callers,
and inside one transaction writes the review (merge) and recomputes the
campsite aggregate from the non-hidden snapshot.  `freshId` models the
document id Firestore would mint for a newly created review. -/
def postReview (db : DB) (campsiteId : Nat) (rating : Option ℚ) (comment : Option String)
    (userId : Option Nat) (ipAddress : String) (now : Int) (freshId : Nat) :
    Except ReviewError SubmitResult × DB :=
  if ratingInvalid rating then
    (Except.error ReviewError.invalidRating, db)
  else if truthyS comment && userId.isNone then
    (Except.error ReviewError.commentRequiresIdentity, db)
  else if truthyS comment && decide (commentLen comment > 1000) then
    (Except.error ReviewError.commentTooLong, db)
  else
    match findSite db campsiteId with
    | none => (Except.error ReviewError.siteNotFound, db)
    | some _ =>
      if userId.isNone && rateLimitHit db campsiteId ipAddress now then
        (Except.error ReviewError.rateLimited, db)
      else
        let db1 : DB :=
          if userId.isNone then
            { db with ratingLimits := db.ratingLimits ++
                [{ ipAddress := ipAddress, campsiteId := campsiteId, timestamp := now }] }
          else db
        let existing : Option Review :=
          match userId with
          | some u => db1.reviews.find? (fun r => r.campsiteId == campsiteId && r.userId == some u)
          | none => none
        let rv : ℚ := rating.getD 0
        let reviewId : Nat := match existing with | some e => e.id | none => freshId
        let isUpdate : Bool := existing.isSome
        let newReview : Review :=
          { id := reviewId
            campsiteId := campsiteId
            userId := userId
            ipAddress := if userId.isSome then none else some ipAddress
            rating := rv
            comment := if truthyS comment then comment else none
            flagCount := 0
            flags := []
            hidden := false
            createdAt := now
            updatedAt := now }
        let reviews1 : List Review :=
          match existing with
          | some e => db1.reviews.map (fun r =>
              if r.id == e.id then { newReview with createdAt := r.createdAt } else r)
          | none => db1.reviews ++ [newReview]
        let snapshot : List Review := nonHiddenFor db1 campsiteId
        let totalRating : ℚ := rv + sumRatings (snapshot.filter (fun r => r.id != reviewId))
        let cnt : Nat := if isUpdate then snapshot.length else snapshot.length + 1
        let avg : ℚ := totalRating / (cnt : ℚ)
        let sites1 : List Site :=
          db1.sites.map (fun s =>
            if s.id == campsiteId then
              { s with
                averageRating := some (round2 avg)
                reviewCount := some cnt
                updatedAt := now }
            else s)
        (Except.ok { reviewId := reviewId, isUpdate := isUpdate },
          { db1 with reviews := reviews1, sites := sites1 })

/-- `PUT /api/campsites/:id/reviews/:reviewId` (routes/reviews), returned as
the list of successive committed states: the review update
(`reviewRef.update`) is one atomic write, and — only when a defined rating
differs from the stored one — the aggregate recomputation `runTransaction`
is a second, separate atomic write.  The trace therefore has one or two
states; readers may observe each committed state. -/
def putReviewSteps (db : DB) (campsiteId reviewId : Nat) (userId : Nat)
    (rating : Option ℚ) (comment : Option String) (now : Int) :
    Except ReviewError (List DB) :=
  if putRatingInvalid rating then
    Except.error ReviewError.invalidRating
  else if truthyS comment && decide (commentLen comment > 1000) then
    Except.error ReviewError.commentTooLong
  else
    match db.reviews.find? (fun r => r.id == reviewId) with
    | none => Except.error ReviewError.reviewNotFound
    | some rev =>
      if rev.userId != some userId then
        Except.error ReviewError.forbidden
      else if rev.campsiteId != campsiteId then
        Except.error ReviewError.wrongCampsite
      else
        let newRev : Review :=
          { rev with
            updatedAt := now
            rating := rating.getD rev.rating
            comment := comment.or rev.comment }
        let db1 : DB :=
          { db with reviews := db.reviews.map (fun r => if r.id == reviewId then newRev else r) }
        if rating.isSome && rating != some rev.rating then
          let snapshot : List Review := nonHiddenFor db1 campsiteId
          let totalRating : ℚ :=
            (snapshot.map (fun r => if r.id == reviewId then rating.getD 0 else r.rating)).sum
          let cnt : Nat := snapshot.length
          let avg : ℚ := totalRating / (cnt : ℚ)
          let sites2 : List Site :=
            db1.sites.map (fun s =>
              if s.id == campsiteId then
                { s with
                  averageRating := some (round2 avg)
                  updatedAt := now }
              else s)
          Except.ok [db1, { db1 with sites := sites2 }]
        else
          Except.ok [db1]

/-- The aggregate transaction shared by the flag route (and the delete
route): recompute from the non-hidden snapshot, skipping `reviewId`, and
delete `averageRating` when the remaining count is zero. -/
def recomputeExcluding (db : DB) (campsiteId reviewId : Nat) (now : Int) : DB :=
  let snapshot : List Review := nonHiddenFor db campsiteId
  let kept : List Review := snapshot.filter (fun r => r.id != reviewId)
  let cnt : Nat := kept.length
  let avg : ℚ := sumRatings kept / (cnt : ℚ)
  let sites1 : List Site :=
    db.sites.map (fun s =>
      if s.id == campsiteId then
        { s with
          averageRating := if cnt > 0 then some (round2 avg) else none
          reviewCount := some cnt
          updatedAt := now }
      else s)
  { db with sites := sites1 }

/-- `POST /api/campsites/:id/reviews/:reviewId/flag` (routes/reviews).
Returns whether the review was hidden together with the new state. -/
def flagReview (db : DB) (campsiteId reviewId : Nat) (userId : Nat)
    (reason : String) (now : Int) :
    Except ReviewError (Bool × DB) :=
  if (jsTrim reason).length == 0 then
    Except.error ReviewError.reasonRequired
  else
    match db.reviews.find? (fun r => r.id == reviewId) with
    | none => Except.error ReviewError.reviewNotFound
    | some rev =>
      if rev.campsiteId != campsiteId then
        Except.error ReviewError.wrongCampsite
      else if rev.flags.any (fun f => f.userId == userId) then
        Except.error ReviewError.alreadyFlagged
      else
        let newFlagCount : Nat := rev.flagCount + 1
        let shouldHide : Bool := decide (newFlagCount ≥ 3)
        let newRev : Review :=
          { rev with
            flags := rev.flags ++ [{ userId := userId, reason := jsTrim reason, timestamp := now }]
            flagCount := newFlagCount
            hidden := shouldHide }
        let db1 : DB :=
          { db with reviews := db.reviews.map (fun r => if r.id == reviewId then newRev else r) }
        let db2 : DB := if shouldHide then recomputeExcluding db1 campsiteId reviewId now else db1
        Except.ok (shouldHide, db2)

/-- Insert `x` into `l` before the first element `y` with `le x y` false…
helper for `stableSort`. -/
def insertSorted (le : α → α → Bool) (x : α) : List α → List α
  | [] => [x]
  | y :: t => if le x y then x :: y :: t else y :: insertSorted le x t

/-- Stable insertion sort.  `Array.prototype.sort` with a consistent
comparator is a stable sort, and any stable sort with a total `le` computes
the same list, so this is a faithful executable model of both the
Firestore `orderBy` results and the V8 sort used by the search route. -/
def stableSort (le : α → α → Bool) : List α → List α
  | [] => []
  | x :: t => insertSorted le x (stableSort le t)

/-- `GET /api/campsites/:id/reviews` with the default `newest` sort:
the non-hidden reviews of the campsite ordered by `createdAt` descending,
then paged with `offset = (page-1)*limit` and `limit`. -/
def listReviewsDefault (db : DB) (campsiteId : Nat) (page limit : Nat) : List Review :=
  let filtered : List Review := nonHiddenFor db campsiteId
  let sorted : List Review := stableSort (fun a b => decide (b.createdAt ≤ a.createdAt)) filtered
  (sorted.drop ((page - 1) * limit)).take limit

/-!
The search pipeline (functions/routes/search.js).  A `Campsite` is a fetched
campsite document as the route sees it after the spread `{id, ...data}`.
-/

/-- A campsite document as consumed by `GET /api/search/campsites`. -/
structure Campsite where
  id : Nat
  title : String
  description : String
  averageRating : Option ℚ
  reviewCount : Option Nat
  hasPhotos : Bool
  createdAt : Option Int
  location : Option (ℚ × ℚ)
  distance : Option ℚ
deriving DecidableEq

/-- Miles per kilometre (`0.621371`) as an exact rational. -/
def milesPerKm : ℚ := 621371 / 1000000

/-- The proximity refinement loop of the geographic branch: for each
candidate returned by the geohash bound queries, keep it only when
`data.location && data.location.latitude && data.location.longitude` is
truthy and the recomputed distance (in miles) is at most the radius, and
annotate it with that distance.  `dist` abstracts the external
`geohash.distanceBetween` (kilometres). -/
def refineCandidates (dist : ℚ × ℚ → ℚ × ℚ → ℚ) (center : ℚ × ℚ) (radiusMiles : ℚ)
    (docs : List Campsite) : List Campsite :=
  docs.filterMap (fun d =>
    match d.location with
    | some (la, ln) =>
      if la != 0 && ln != 0 then
        let distMiles : ℚ := dist (la, ln) center * milesPerKm
        if decide (distMiles ≤ radiusMiles) then some { d with distance := some distMiles }
        else none
      else none
    | none => none)

/-- The `minRating` client-side filter:
`campsite.averageRating && campsite.averageRating >= minRatingValue`.
`none` means the query parameter was absent or empty (falsy string). -/
def applyMinRatingFilter (minRating : Option ℚ) (l : List Campsite) : List Campsite :=
  match minRating with
  | none => l
  | some v => l.filter (fun c =>
      match c.averageRating with
      | none => false
      | some a => a != 0 && decide (a ≥ v))

/-- The `hasPhotos` client-side filter (`hasPhotos === 'true'`). -/
def applyPhotoFilter (hasPhotos : Bool) (l : List Campsite) : List Campsite :=
  if hasPhotos then l.filter (fun c => c.hasPhotos == true) else l

/-- JavaScript `hay.includes(needle)`: contiguous-substring test on
character lists. -/
def containsSeq (needle : List Char) : List Char → Bool
  | [] => needle.isEmpty
  | h :: t => needle.isPrefixOf (h :: t) || containsSeq needle t

/-- The text-search client-side filter: case-insensitive substring match of
the trimmed query against title or description. -/
def textMatches (term : String) (c : Campsite) : Bool :=
  containsSeq (jsToLower term).data (jsToLower c.title).data ||
    containsSeq (jsToLower term).data (jsToLower c.description).data

/-- The `q` client-side filter; skipped when `q` is absent or trims empty
(`if (q && q.trim())`). -/
def applyTextFilter (q : Option String) (l : List Campsite) : List Campsite :=
  match q with
  | none => l
  | some s =>
    if jsTrim s == "" then l
    else l.filter (fun c => textMatches (jsTrim s) c)

/-- Sort key for `newest`: `a.createdAt ? a.createdAt.toMillis() : 0`. -/
def newestKey (c : Campsite) : Int := match c.createdAt with | some t => t | none => 0

/-- Sort key for `distance`: `a.distance || Infinity`, with `none` standing
for `Infinity` (note a falsy stored distance of 0 also maps to infinity). -/
def distanceKey (c : Campsite) : Option ℚ :=
  match c.distance with
  | some q => if q == 0 then none else some q
  | none => none

/-- Stable comparison used by the ascending distance sort, treating `none`
as `Infinity`. -/
def distanceLe (a b : Campsite) : Bool :=
  match distanceKey a, distanceKey b with
  | none, none => true
  | none, some _ => false
  | some _, none => true
  | some x, some y => decide (x ≤ y)

/-- The sorting switch of the search route.  `hasGeo` records whether
`lat && lng` was truthy; with sort key `distance` and no geographic filter
the switch performs no sort at all. -/
def sortResults (sort : String) (hasGeo : Bool) (l : List Campsite) : List Campsite :=
  if sort == "rating" then
    stableSort (fun a b => decide ((b.averageRating.getD 0) ≤ (a.averageRating.getD 0))) l
  else if sort == "reviewCount" then
    stableSort (fun a b => decide ((b.reviewCount.getD 0) ≤ (a.reviewCount.getD 0))) l
  else if sort == "distance" then
    if hasGeo then stableSort distanceLe l else l
  else
    stableSort (fun a b => decide (newestKey b ≤ newestKey a)) l

/-- The post-fetch part of the search pipeline: the three client-side
filters in source order, then the sort switch, then pagination
(`slice(offset, offset + limit)`). -/
def searchFilterSort (minRating : Option ℚ) (hasPhotos : Bool) (q : Option String)
    (sort : String) (hasGeo : Bool) (page limit : Nat) (l : List Campsite) : List Campsite :=
  let r1 : List Campsite := applyMinRatingFilter minRating l
  let r2 : List Campsite := applyPhotoFilter hasPhotos r1
  let r3 : List Campsite := applyTextFilter q r2
  let sorted : List Campsite := sortResults sort hasGeo r3
  (sorted.drop ((page - 1) * limit)).take limit

/-- Whether the identified submitter's existing review for the campsite, if
any, is not hidden.  This is the side condition under which the Submit
aggregate recomputation is correct (see the C1 theorems). -/
def existingNotHidden (db : DB) (campsiteId : Nat) (userId : Option Nat) : Bool :=
  match userId with
  | none => true
  | some u =>
    match db.reviews.find? (fun r => r.campsiteId == campsiteId && r.userId == some u) with
    | some e => !e.hidden
    | none => true

/-- Scaffolding: the `minRating` filter as a pointwise predicate. -/
def minRatingPred (minRating : Option ℚ) (c : Campsite) : Bool :=
  match minRating with
  | none => true
  | some v =>
    match c.averageRating with
    | none => false
    | some a => a != 0 && decide (a ≥ v)

/-- Scaffolding: the photo filter as a pointwise predicate. -/
def photoPred (hasPhotos : Bool) (c : Campsite) : Bool :=
  if hasPhotos then c.hasPhotos == true else true

/-- Scaffolding: the text filter as a pointwise predicate. -/
def textPred (q : Option String) (c : Campsite) : Bool :=
  match q with
  | none => true
  | some s => if jsTrim s == "" then true else textMatches (jsTrim s) c

/-- A stored rating that satisfies the data model: an integer in [1,5]. -/
def ratingOk (q : ℚ) : Bool := jsIsInteger q && decide (1 ≤ q) && decide (q ≤ 5)

/-!
Concrete instances used by counterexamples and witnesses.
-/

/-- A flag record by user `u`. -/
def mkFlag (u : Nat) : Flag := { userId := u, reason := "spam", timestamp := 0 }

/-- A review hidden by three flags, authored by user 7 on campsite 1. -/
def hiddenReview : Review :=
  { id := 10, campsiteId := 1, userId := some 7, ipAddress := none, rating := 2,
    comment := none, flagCount := 3, flags := [mkFlag 21, mkFlag 22, mkFlag 23],
    hidden := true, createdAt := 0, updatedAt := 0 }

/-- A live (non-hidden) review by user 8 on campsite 1. -/
def liveReview : Review :=
  { id := 11, campsiteId := 1, userId := some 8, ipAddress := none, rating := 4,
    comment := none, flagCount := 0, flags := [], hidden := false,
    createdAt := 5, updatedAt := 5 }

/-- Campsite 1 with aggregates consistent with one live review of rating 4. -/
def siteOne : Site := { id := 1, averageRating := some 4, reviewCount := some 1, updatedAt := 0 }

/-- A store holding campsite 1, one hidden review (user 7) and one live
review (user 8). -/
def dbHidden : DB :=
  { sites := [siteOne], reviews := [hiddenReview, liveReview], ratingLimits := [] }

/-- A live review by user 7 on campsite 1 with rating 2. -/
def putRev : Review :=
  { id := 10, campsiteId := 1, userId := some 7, ipAddress := none, rating := 2,
    comment := none, flagCount := 0, flags := [], hidden := false,
    createdAt := 0, updatedAt := 0 }

/-- A store holding campsite 1 (aggregate 2.00 from one review) and `putRev`. -/
def dbPut : DB :=
  { sites := [{ id := 1, averageRating := some 2, reviewCount := some 1, updatedAt := 0 }],
    reviews := [putRev], ratingLimits := [] }

/-- A store with campsite 1 and no reviews or rate-limit entries. -/
def dbEmptySite : DB :=
  { sites := [{ id := 1, averageRating := none, reviewCount := none, updatedAt := 0 }],
    reviews := [], ratingLimits := [] }

/-- Campsite fetched at creation time 100. -/
def campA : Campsite :=
  { id := 1, title := "a", description := "", averageRating := none, reviewCount := none,
    hasPhotos := false, createdAt := some 100, location := none, distance := none }

/-- Campsite fetched at creation time 200 (newer than `campA`). -/
def campB : Campsite :=
  { id := 2, title := "b", description := "", averageRating := none, reviewCount := none,
    hasPhotos := false, createdAt := some 200, location := none, distance := none }

/-- A campsite on the equator: known coordinates with latitude 0. -/
def campEquator : Campsite :=
  { id := 3, title := "eq", description := "", averageRating := none, reviewCount := none,
    hasPhotos := false, createdAt := none, location := some (0, 10), distance := none }

/-- A public campsite with no rating yet. -/
def campUnrated : Campsite :=
  { id := 4, title := "x", description := "", averageRating := none, reviewCount := none,
    hasPhotos := false, createdAt := none, location := none, distance := none }

section Lemmas

theorem mem_insertSorted {α : Type _} (le : α → α → Bool) (x a : α) :
    ∀ l : List α, a ∈ insertSorted le x l ↔ a = x ∨ a ∈ l := by
  intro l
  induction l with
  | nil => simp [insertSorted]
  | cons y t ih =>
    by_cases h : le x y = true
    · simp [insertSorted, h, List.mem_cons]
    · simp only [insertSorted, h, Bool.false_eq_true, if_false, List.mem_cons, ih]
      tauto

theorem mem_stableSort {α : Type _} (le : α → α → Bool) (a : α) :
    ∀ l : List α, a ∈ stableSort le l ↔ a ∈ l := by
  intro l
  induction l with
  | nil => simp [stableSort]
  | cons x t ih =>
    simp only [stableSort, mem_insertSorted, ih, List.mem_cons]

theorem find?_map_pres {α : Type _} (f : α → α) (p : α → Bool)
    (hp : ∀ x, p (f x) = p x) :
    ∀ l : List α, (l.map f).find? p = (l.find? p).map f := by
  intro l
  induction l with
  | nil => simp
  | cons x t ih =>
    simp only [List.map_cons, List.find?_cons]
    rw [hp x]
    by_cases h : p x = true
    · simp [h]
    · simp only [Bool.not_eq_true] at h
      simp [h, ih]

theorem nodup_id_mem_eq {l : List Review} (hnd : (l.map Review.id).Nodup)
    {a b : Review} (ha : a ∈ l) (hb : b ∈ l) (hid : a.id = b.id) : a = b := by
  have := List.inj_on_of_nodup_map hnd
  exact this ha hb hid

theorem filter_id_single {l : List Review} (hnd : (l.map Review.id).Nodup)
    {e : Review} (he : e ∈ l) :
    l.filter (fun r => r.id == e.id) = [e] := by
  induction l with
  | nil => cases he
  | cons x t ih =>
    simp only [List.map_cons, List.nodup_cons] at hnd
    rcases List.mem_cons.mp he with rfl | het
    · simp only [List.filter_cons, beq_self_eq_true, if_pos]
      have ht : t.filter (fun r => r.id == e.id) = [] := by
        apply List.filter_eq_nil_iff.mpr
        intro a hat
        simp only [beq_iff_eq]
        intro hae
        exact hnd.1 (List.mem_map.mpr ⟨a, hat, hae⟩)
      simp [ht]
    · have hxe : (x.id == e.id) = false := by
        simp only [beq_eq_false_iff_ne, ne_eq]
        intro hxe
        exact hnd.1 (List.mem_map.mpr ⟨e, het, hxe.symm⟩)
      simp [List.filter_cons, hxe, ih hnd.2 het]

theorem find?_id_of_nodup {l : List Review} (hnd : (l.map Review.id).Nodup)
    {e : Review} (he : e ∈ l) :
    l.find? (fun r => r.id == e.id) = some e := by
  induction l with
  | nil => cases he
  | cons x t ih =>
    simp only [List.map_cons, List.nodup_cons] at hnd
    rcases List.mem_cons.mp he with rfl | het
    · simp [List.find?_cons]
    · have hxe : (x.id == e.id) = false := by
        simp only [beq_eq_false_iff_ne, ne_eq]
        intro hxe
        exact hnd.1 (List.mem_map.mpr ⟨e, het, hxe.symm⟩)
      simp [List.find?_cons, hxe, ih hnd.2 het]

theorem sumRatings_append (a b : List Review) :
    sumRatings (a ++ b) = sumRatings a + sumRatings b := by
  simp [sumRatings]

theorem map_if_not (P : Review → Bool) (n : Review → Review) :
    ∀ t : List Review, (∀ r ∈ t, P r = false) →
      t.map (fun r => if P r then n r else r) = t := by
  intro t
  induction t with
  | nil => intro _; rfl
  | cons x s ih =>
    intro h
    have hx := h x (List.mem_cons_self x s)
    simp only [List.map_cons, hx, Bool.false_eq_true, if_false]
    rw [ih (fun r hr => h r (List.mem_cons_of_mem x hr))]

theorem filter_map_swap (e : Review) (n : Review → Review) (p : Review → Bool)
    (hpe : p e = true) (hpn : p (n e) = true) :
    ∀ l : List Review, l.filter (fun r => r.id == e.id) = [e] →
      (l.map (fun r => if r.id == e.id then n r else r)).filter p
        = (l.filter p).map (fun r => if r.id == e.id then n r else r) := by
  intro l
  induction l with
  | nil => intro hfil; simp
  | cons x t ih =>
    intro hfil
    by_cases hx : (x.id == e.id) = true
    · have hxe : x = e := by
        simp only [List.filter_cons, hx, if_pos] at hfil
        exact (List.cons_eq_cons.mp hfil).1
      subst hxe
      have ht : t.filter (fun r => r.id == x.id) = [] := by
        simp only [List.filter_cons, hx, if_pos] at hfil
        exact (List.cons_eq_cons.mp hfil).2
      have htid : ∀ r ∈ t, (r.id == x.id) = false := by
        intro r hr
        by_contra hcon
        simp only [Bool.not_eq_false] at hcon
        have hmem : r ∈ t.filter (fun r => r.id == x.id) := List.mem_filter.mpr ⟨hr, hcon⟩
        rw [ht] at hmem
        cases hmem
      have hmapt := map_if_not (fun r => r.id == x.id) n t htid
      simp only [List.map_cons, hx, if_pos, List.filter_cons, hpn, hpe, hmapt]
      congr 1
      exact (map_if_not (fun r => r.id == x.id) n (t.filter p)
        (fun r hr => htid r (List.mem_of_mem_filter hr))).symm
    · simp only [Bool.not_eq_true] at hx
      have hfil' : t.filter (fun r => r.id == e.id) = [e] := by
        simpa [List.filter_cons, hx] using hfil
      simp only [List.map_cons, hx, Bool.false_eq_true, if_false, List.filter_cons]
      by_cases hp : p x = true
      · simp only [hp, if_pos, List.map_cons, hx, Bool.false_eq_true, if_false]
        rw [ih hfil']
      · simp only [Bool.not_eq_true] at hp
        simp only [hp, Bool.false_eq_true, if_false]
        exact ih hfil'

theorem sumRatings_map_replace (e : Review) (n : Review → Review) (rv : ℚ)
    (hrat : ∀ r, (n r).rating = rv) :
    ∀ l : List Review, l.filter (fun r => r.id == e.id) = [e] →
      sumRatings (l.map (fun r => if r.id == e.id then n r else r))
        = rv + sumRatings (l.filter (fun r => r.id != e.id)) := by
  intro l
  induction l with
  | nil => intro hfil; simp at hfil
  | cons x t ih =>
    intro hfil
    by_cases hx : (x.id == e.id) = true
    · have hxe : x = e := by
        simp only [List.filter_cons, hx, if_pos] at hfil
        exact (List.cons_eq_cons.mp hfil).1
      subst hxe
      have ht : t.filter (fun r => r.id == x.id) = [] := by
        simp only [List.filter_cons, hx, if_pos] at hfil
        exact (List.cons_eq_cons.mp hfil).2
      have htid : ∀ r ∈ t, (r.id == x.id) = false := by
        intro r hr
        by_contra hcon
        simp only [Bool.not_eq_false] at hcon
        have hmem : r ∈ t.filter (fun r => r.id == x.id) := List.mem_filter.mpr ⟨hr, hcon⟩
        rw [ht] at hmem
        cases hmem
      have hmapt := map_if_not (fun r => r.id == x.id) n t htid
      have hft : t.filter (fun r => r.id != x.id) = t := by
        apply List.filter_eq_self.mpr
        intro r hr
        simp [bne, htid r hr]
      simp only [List.map_cons, hx, if_pos, List.filter_cons, bne_self_eq_false,
        Bool.false_eq_true, if_false, hmapt, hft, sumRatings, List.map_cons, List.sum_cons]
      rw [hrat x]
    · simp only [Bool.not_eq_true] at hx
      have hfil' : t.filter (fun r => r.id == e.id) = [e] := by
        simpa [List.filter_cons, hx] using hfil
      have hbne : (x.id != e.id) = true := by simp [bne, hx]
      simp only [List.map_cons, hx, Bool.false_eq_true, if_false, List.filter_cons, hbne, if_pos]
      have hrec := ih hfil'
      simp only [sumRatings, List.map_cons, List.sum_cons] at hrec ⊢
      rw [hrec]
      ring

theorem sumRatings_filter_ne_of_fresh (l : List Review) (fid : Nat)
    (hfresh : ∀ r ∈ l, r.id ≠ fid) :
    l.filter (fun r => r.id != fid) = l := by
  apply List.filter_eq_self.mpr
  intro r hr
  simp [bne, hfresh r hr]

theorem filter_filter_comm {α : Type _} (p q : α → Bool) (l : List α) :
    (l.filter p).filter q = (l.filter q).filter p := by
  induction l with
  | nil => rfl
  | cons x t ih =>
    by_cases hp : p x = true <;> by_cases hq : q x = true <;>
      simp [List.filter_cons, hp, hq, ih]

theorem applyMinRatingFilter_eq_filter (mr : Option ℚ) (l : List Campsite) :
    applyMinRatingFilter mr l = l.filter (minRatingPred mr) := by
  cases mr with
  | none => exact (List.filter_eq_self.mpr (fun a _ => rfl)).symm
  | some v => rfl

theorem applyPhotoFilter_eq_filter (hp : Bool) (l : List Campsite) :
    applyPhotoFilter hp l = l.filter (photoPred hp) := by
  cases hp with
  | false => exact (List.filter_eq_self.mpr (fun a _ => rfl)).symm
  | true => rfl

theorem applyTextFilter_eq_filter (q : Option String) (l : List Campsite) :
    applyTextFilter q l = l.filter (textPred q) := by
  cases q with
  | none => exact (List.filter_eq_self.mpr (fun a _ => rfl)).symm
  | some s =>
    by_cases h : jsTrim s = ""
    · have hb : (jsTrim s == "") = true := by simp [h]
      simp only [applyTextFilter, hb, if_pos]
      exact (List.filter_eq_self.mpr (fun a _ => by simp [textPred, hb])).symm
    · have hb : (jsTrim s == "") = false := by simp [h]
      simp only [applyTextFilter, hb, Bool.false_eq_true, if_false]
      exact List.filter_congr (fun a _ => by simp [textPred, hb])

theorem mem_sortResults {sort : String} {hasGeo : Bool} {l : List Campsite} {a : Campsite} :
    a ∈ sortResults sort hasGeo l ↔ a ∈ l := by
  unfold sortResults
  by_cases h1 : (sort == "rating") = true
  · simp [h1, mem_stableSort]
  · by_cases h2 : (sort == "reviewCount") = true
    · simp [h1, h2, mem_stableSort]
    · by_cases h3 : (sort == "distance") = true
      · cases hasGeo <;> simp [h1, h2, h3, mem_stableSort]
      · simp [h1, h2, h3, mem_stableSort]

theorem mem_searchFilterSort {mr : Option ℚ} {hp : Bool} {q : Option String}
    {sort : String} {hasGeo : Bool} {page limit : Nat} {l : List Campsite} {a : Campsite}
    (h : a ∈ searchFilterSort mr hp q sort hasGeo page limit l) :
    a ∈ applyMinRatingFilter mr l := by
  unfold searchFilterSort at h
  have h1 : a ∈ sortResults sort hasGeo (applyTextFilter q (applyPhotoFilter hp (applyMinRatingFilter mr l))) := by
    exact List.drop_subset _ _ (List.take_subset _ _ h)
  have h2 := mem_sortResults.mp h1
  rw [applyTextFilter_eq_filter] at h2
  have h3 := List.mem_of_mem_filter h2
  rw [applyPhotoFilter_eq_filter] at h3
  exact List.mem_of_mem_filter h3

theorem postReview_anon_shape (db : DB) (cid : Nat) (r : Option ℚ) (ip : String)
    (now : Int) (fid : Nat) (s : Site)
    (hr : ratingInvalid r = false)
    (hs : findSite db cid = some s)
    (hnolim : rateLimitHit db cid ip now = false) :
    (postReview db cid r none none ip now fid).1
        = Except.ok { reviewId := fid, isUpdate := false } ∧
      (postReview db cid r none none ip now fid).2.ratingLimits
        = db.ratingLimits ++ [{ ipAddress := ip, campsiteId := cid, timestamp := now }] ∧
      ∃ g : Site → Site, (∀ x, (g x).id = x.id) ∧
        (postReview db cid r none none ip now fid).2.sites = db.sites.map g := by
  simp only [postReview, hr, hs, truthyS, Option.isNone_none, Bool.false_eq_true, if_false,
    Bool.false_and, Bool.and_false, Bool.true_and, Bool.and_true, hnolim, if_true,
    Option.isSome_none]
  refine ⟨by trivial, by trivial, ⟨_, fun x => ?_, rfl⟩⟩
  by_cases hx : (x.id == cid) = true <;> simp [hx]

theorem postReview_reviews_ratings (db : DB) (cid : Nat) (rating : Option ℚ)
    (comment : Option String) (uid : Option Nat) (ip : String) (now : Int) (fid : Nat) :
    ∀ r ∈ (postReview db cid rating comment uid ip now fid).2.reviews,
      r ∈ db.reviews ∨ (ratingInvalid rating = false ∧ r.rating = rating.getD 0) := by
  intro r hr
  unfold postReview at hr
  by_cases h1 : ratingInvalid rating = true
  · rw [if_pos h1] at hr
    exact Or.inl hr
  rw [if_neg h1] at hr
  by_cases h2 : (truthyS comment && uid.isNone) = true
  · rw [if_pos h2] at hr
    exact Or.inl hr
  rw [if_neg h2] at hr
  by_cases h3 : (truthyS comment && decide (commentLen comment > 1000)) = true
  · rw [if_pos h3] at hr
    exact Or.inl hr
  rw [if_neg h3] at hr
  rcases hfs : findSite db cid with _ | s
  · rw [hfs] at hr
    exact Or.inl hr
  rw [hfs] at hr
  by_cases h4 : (uid.isNone && rateLimitHit db cid ip now) = true
  · rw [if_pos h4] at hr
    exact Or.inl hr
  rw [if_neg h4] at hr
  have hval : ratingInvalid rating = false := by simpa using h1
  rcases uid with _ | u
  · simp only [Option.isNone_none, if_true, Option.isSome_none, List.mem_append,
      List.mem_singleton] at hr
    rcases hr with hr | hr
    · exact Or.inl hr
    · exact Or.inr ⟨hval, by rw [hr]⟩
  · simp only [Option.isNone_some, Bool.false_eq_true, if_false] at hr
    rcases hex : db.reviews.find? (fun r => r.campsiteId == cid && r.userId == some u)
      with _ | e
    · rw [hex] at hr
      simp only [List.mem_append, List.mem_singleton] at hr
      rcases hr with hr | hr
      · exact Or.inl hr
      · exact Or.inr ⟨hval, by rw [hr]⟩
    · rw [hex] at hr
      simp only [List.mem_map] at hr
      obtain ⟨x, hx, hxr⟩ := hr
      by_cases hid : (x.id == e.id) = true
      · rw [if_pos hid] at hxr
        exact Or.inr ⟨hval, by rw [← hxr]⟩
      · rw [if_neg hid] at hxr
        exact Or.inl (hxr ▸ hx)

theorem putReviewSteps_reviews_ratings (db : DB) (cid rid u : Nat) (rating : Option ℚ)
    (comment : Option String) (now : Int) :
    ∀ d ∈ (putReviewSteps db cid rid u rating comment now).toOption.getD [],
      ∀ r ∈ d.reviews,
        r ∈ db.reviews ∨
          (putRatingInvalid rating = false ∧ ∃ q, rating = some q ∧ r.rating = q) ∨
          (∃ e ∈ db.reviews, r.rating = e.rating) := by
  intro d hd r hr
  unfold putReviewSteps at hd
  by_cases h1 : putRatingInvalid rating = true
  · rw [if_pos h1] at hd
    simp [Except.toOption] at hd
  rw [if_neg h1] at hd
  by_cases h2 : (truthyS comment && decide (commentLen comment > 1000)) = true
  · rw [if_pos h2] at hd
    simp [Except.toOption] at hd
  rw [if_neg h2] at hd
  rcases hfind : db.reviews.find? (fun r => r.id == rid) with _ | rev
  · rw [hfind] at hd
    simp [Except.toOption] at hd
  rw [hfind] at hd
  dsimp only at hd
  have hrevmem : rev ∈ db.reviews := List.mem_of_find?_eq_some hfind
  by_cases h3 : (rev.userId != some u) = true
  · rw [if_pos h3] at hd
    simp [Except.toOption] at hd
  rw [if_neg h3] at hd
  by_cases h4 : (rev.campsiteId != cid) = true
  · rw [if_pos h4] at hd
    simp [Except.toOption] at hd
  rw [if_neg h4] at hd
  have hval : putRatingInvalid rating = false := by simpa using h1
  have hmain : ∀ x ∈ db.reviews,
      r = (if x.id == rid then
        { rev with
          updatedAt := now
          rating := rating.getD rev.rating
          comment := comment.or rev.comment } else x) →
      r ∈ db.reviews ∨
        (putRatingInvalid rating = false ∧ ∃ q, rating = some q ∧ r.rating = q) ∨
        (∃ e ∈ db.reviews, r.rating = e.rating) := by
    intro x hx hxr
    by_cases hid : (x.id == rid) = true
    · rw [if_pos hid] at hxr
      subst hxr
      cases rating with
      | none => exact Or.inr (Or.inr ⟨rev, hrevmem, rfl⟩)
      | some q => exact Or.inr (Or.inl ⟨hval, q, rfl, rfl⟩)
    · rw [if_neg hid] at hxr
      exact Or.inl (hxr ▸ hx)
  by_cases h5 : (rating.isSome && rating != some rev.rating) = true
  · rw [if_pos h5] at hd
    simp only [Except.toOption, Option.getD_some, List.mem_cons, List.mem_singleton,
      List.not_mem_nil, or_false] at hd
    rcases hd with hd | hd
    · subst hd
      simp only [List.mem_map] at hr
      obtain ⟨x, hx, hxr⟩ := hr
      exact hmain x hx hxr.symm
    · subst hd
      simp only [List.mem_map] at hr
      obtain ⟨x, hx, hxr⟩ := hr
      exact hmain x hx hxr.symm
  · rw [if_neg h5] at hd
    simp only [Except.toOption, Option.getD_some, List.mem_singleton] at hd
    subst hd
    simp only [List.mem_map] at hr
    obtain ⟨x, hx, hxr⟩ := hr
    exact hmain x hx hxr.symm

theorem find?_map_ite_image {α : Type _} (p : α → Bool) (g : α → α) (l : List α) (s : α)
    (h : (l.map (fun x => if p x then g x else x)).find? p = some s) :
    ∃ x, x ∈ l ∧ p x = true ∧ s = g x := by
  induction l with
  | nil => simp at h
  | cons y t ih =>
    simp only [List.map_cons] at h
    by_cases hy : p y = true
    · rw [if_pos hy] at h
      by_cases hgy : p (g y) = true
      · rw [List.find?_cons_of_pos _ hgy] at h
        exact ⟨y, List.mem_cons_self y t, hy, (Option.some.inj h).symm⟩
      · rw [List.find?_cons_of_neg _ (by simp [hgy])] at h
        obtain ⟨x, hx, hpx, hgx⟩ := ih h
        exact ⟨x, List.mem_cons_of_mem y hx, hpx, hgx⟩
    · rw [if_neg hy, List.find?_cons_of_neg _ (by simp [hy])] at h
      obtain ⟨x, hx, hpx, hgx⟩ := ih h
      exact ⟨x, List.mem_cons_of_mem y hx, hpx, hgx⟩

theorem find?_isSome_map_ite {α : Type _} (p : α → Bool) (g : α → α) (l : List α)
    (hg : ∀ x, p x = true → p (g x) = true)
    (hsome : (l.find? p).isSome = true) :
    ((l.map (fun x => if p x then g x else x)).find? p).isSome = true := by
  rw [List.find?_isSome] at hsome ⊢
  obtain ⟨x, hx, hpx⟩ := hsome
  refine ⟨g x, ?_, hg x hpx⟩
  have hmem := List.mem_map_of_mem (fun x => if p x then g x else x) hx
  simpa [hpx] using hmem

theorem map_find?_proj_eq {α : Type _} {β : Type _} (p : α → Bool) (g : α → α)
    (l : List α) (proj : α → β) (b : β)
    (hsome : (l.find? p).isSome = true)
    (himg : ∀ x, p x = true → p (g x) = true ∧ proj (g x) = b) :
    ((l.map (fun x => if p x then g x else x)).find? p).map proj = some b := by
  have h1 : ((l.map (fun x => if p x then g x else x)).find? p).isSome = true := by
    apply find?_isSome_map_ite
    · intro x hx
      exact (himg x hx).1
    · exact hsome
  obtain ⟨r0, hr0⟩ := Option.isSome_iff_exists.mp h1
  obtain ⟨x, hxmem, hpx, hgx⟩ := find?_map_ite_image _ _ _ _ hr0
  rw [hr0, hgx]
  show some (proj (g x)) = some b
  rw [(himg x hpx).2]

theorem sum_subst_eq (l : List Review) (rid : Nat) (v : ℚ)
    (h : ∀ r ∈ l, (r.id == rid) = true → r.rating = v) :
    (l.map (fun r => if r.id == rid then v else r.rating)).sum = sumRatings l := by
  unfold sumRatings
  congr 1
  apply List.map_congr_left
  intro r hr
  by_cases hid : (r.id == rid) = true
  · rw [if_pos hid, h r hr hid]
  · rw [if_neg hid]

theorem ratingInvalid_false_ok (q : ℚ) (h : ratingInvalid (some q) = false) :
    ratingOk q = true := by
  simp only [ratingInvalid] at h
  obtain ⟨h1, h5⟩ := Bool.or_eq_false_iff.mp h
  obtain ⟨h2, h4⟩ := Bool.or_eq_false_iff.mp h1
  obtain ⟨h0, h3⟩ := Bool.or_eq_false_iff.mp h2
  have hint : jsIsInteger q = true := by simpa using h3
  have hge : 1 ≤ q := not_lt.mp (of_decide_eq_false h4)
  have hle : q ≤ 5 := not_lt.mp (of_decide_eq_false h5)
  simp [ratingOk, hint, hge, hle]

theorem putRatingInvalid_false_ok (q : ℚ) (hq : q ≠ 0)
    (h : putRatingInvalid (some q) = false) : ratingOk q = true := by
  have hbne : (q != 0) = true := by simp [bne, hq]
  simp only [putRatingInvalid, hbne, Bool.true_and] at h
  obtain ⟨h1, h5⟩ := Bool.or_eq_false_iff.mp h
  obtain ⟨h3, h4⟩ := Bool.or_eq_false_iff.mp h1
  have hint : jsIsInteger q = true := by simpa using h3
  have hge : 1 ≤ q := not_lt.mp (of_decide_eq_false h4)
  have hle : q ≤ 5 := not_lt.mp (of_decide_eq_false h5)
  simp [ratingOk, hint, hge, hle]

end Lemmas

/-- C5 (counterexample): the claim says that with sort key `distance` and no
geographic filter the result is ordered by `newest` semantics, identically
to `sort = newest`.  On the fetched list `[campA, campB]` (older first) the
distance branch performs no sort at all and returns `[campA, campB]`, while
`newest` returns `[campB, campA]`. -/
theorem C5_counterexample :
    sortResults "distance" false [campA, campB] = [campA, campB] ∧
      sortResults "newest" false [campA, campB] = [campB, campA] ∧
      ¬ sortResults "distance" false [campA, campB]
          = sortResults "newest" false [campA, campB] := by
  refine ⟨by decide, by decide, by decide⟩

/-- C5 (amended): when the sort key is `distance` and no geographic filter
was supplied (`lat && lng` falsy), the sorting switch applies no reordering
at all — the filtered result list is returned in its pre-sort (fetch) order,
which in general differs from the `newest` order. -/
theorem C5_distance_no_geo_sort (l : List Campsite) :
    sortResults "distance" false l = l := by
  simp [sortResults]

/-- C6 (counterexample): the claim says every candidate with known
coordinates is retained iff its distance is within the radius.  `campEquator`
has known coordinates `(0, 10)` and, under a distance function returning 0,
distance `0 ≤ 1` mile, yet the refinement drops it: latitude `0` is falsy in
`data.location && data.location.latitude && data.location.longitude`. -/
theorem C6_counterexample :
    campEquator.location = some (0, 10) ∧
      ((fun (_ _ : ℚ × ℚ) => (0 : ℚ)) (0, 10) (0, 0)) * milesPerKm ≤ 1 ∧
      refineCandidates (fun _ _ => 0) (0, 0) 1 [campEquator] = [] := by
  refine ⟨rfl, ?_, by decide⟩
  norm_num [milesPerKm]

/-- C6 (amended): a candidate is retained by the proximity refinement iff it
has known coordinates with *nonzero* latitude and longitude and its
recomputed distance in miles is at most the radius; retained candidates are
annotated with that distance, and candidates lacking coordinates — or with a
zero (falsy) latitude or longitude — are dropped silently. -/
theorem C6_refine_characterization (dist : ℚ × ℚ → ℚ × ℚ → ℚ) (center : ℚ × ℚ)
    (radius : ℚ) (docs : List Campsite) (c : Campsite) :
    c ∈ refineCandidates dist center radius docs ↔
      ∃ d ∈ docs, ∃ la ln : ℚ, d.location = some (la, ln) ∧ la ≠ 0 ∧ ln ≠ 0 ∧
        dist (la, ln) center * milesPerKm ≤ radius ∧
        c = { d with distance := some (dist (la, ln) center * milesPerKm) } := by
  unfold refineCandidates
  rw [List.mem_filterMap]
  constructor
  · rintro ⟨d, hd, hfd⟩
    rcases hloc : d.location with _ | ⟨la, ln⟩
    · simp [hloc] at hfd
    · simp only [hloc] at hfd
      by_cases h1 : (la != 0 && ln != 0) = true
      · simp only [h1, if_pos] at hfd
        by_cases h2 : decide (dist (la, ln) center * milesPerKm ≤ radius) = true
        · simp only [h2, if_pos] at hfd
          refine ⟨d, hd, la, ln, hloc, ?_, ?_, of_decide_eq_true h2, ?_⟩
          · simpa [bne] using ((Bool.and_eq_true _ _).mp h1).1
          · simpa [bne] using ((Bool.and_eq_true _ _).mp h1).2
          · rw [hloc]
            exact (Option.some.inj hfd).symm
        · simp only [Bool.not_eq_true] at h2
          simp [h2] at hfd
      · simp only [Bool.not_eq_true] at h1
        simp [h1] at hfd
  · rintro ⟨d, hd, la, ln, hloc, hla, hln, hle, rfl⟩
    refine ⟨d, hd, ?_⟩
    have h1 : (la != 0 && ln != 0) = true := by simp [bne, hla, hln]
    have h2 : decide (dist (la, ln) center * milesPerKm ≤ radius) = true := decide_eq_true hle
    simp only [hloc, h1, if_pos, h2]

/-- C1 (counterexample): the claim requires the Submit aggregate invariant
to hold for every prior state, including when the submitter's existing
review was hidden.  In `dbHidden` review 10 (user 7) is hidden and review 11
is live, and the site consistently records reviewCount 1.  User 7
re-submits: the merge un-hides review 10, so afterwards two non-hidden
reviews reference the site, but the transaction counted only the pre-state
non-hidden snapshot and wrote reviewCount 1. -/
theorem C1_counterexample :
    (postReview dbHidden 1 (some 5) none (some 7) "ip" 100 99).1
        = Except.ok { reviewId := 10, isUpdate := true } ∧
      ((findSite (postReview dbHidden 1 (some 5) none (some 7) "ip" 100 99).2 1).map
          Site.reviewCount) = some (some 1) ∧
      (nonHiddenFor (postReview dbHidden 1 (some 5) none (some 7) "ip" 100 99).2 1).length
        = 2 := by
  refine ⟨by decide, by decide, by decide⟩

/-- C1 (amended): for every Submit call that returns success, provided the
submitter's existing review for the site (if any) was not hidden, the
written aggregates are correct: the Site's stored reviewCount equals the
number of non-hidden Reviews referencing it in the post-state, and its
stored averageRating equals their mean rounded to two decimals (the count is
never 0 after an accepted submission, so the absent case does not arise).
When the submitter's existing review was hidden, the snapshot misses the
just-unhidden review and the written aggregates are wrong (counterexample). -/
theorem C1_submit_aggregates (db : DB) (cid : Nat) (rating : Option ℚ)
    (comment : Option String) (uid : Option Nat) (ip : String) (now : Int) (fid : Nat)
    (hnd : (db.reviews.map Review.id).Nodup)
    (hfresh : db.reviews.all (fun r => r.id != fid) = true)
    (hexn : existingNotHidden db cid uid = true)
    (hok : (postReview db cid rating comment uid ip now fid).1.isOk = true) :
    ((findSite (postReview db cid rating comment uid ip now fid).2 cid).map
        Site.reviewCount)
      = some (some ((nonHiddenFor (postReview db cid rating comment uid ip now fid).2
          cid).length)) ∧
    ((findSite (postReview db cid rating comment uid ip now fid).2 cid).map
        Site.averageRating)
      = some (some (round2 (sumRatings (nonHiddenFor (postReview db cid rating comment uid
          ip now fid).2 cid) /
        ((nonHiddenFor (postReview db cid rating comment uid ip now fid).2 cid).length
          : ℚ)))) := by
  have h1 : ratingInvalid rating = false := by
    rcases Bool.eq_false_or_eq_true (ratingInvalid rating) with h | h
    · exfalso
      unfold postReview at hok
      rw [if_pos h] at hok
      simp [Except.isOk, Except.toBool] at hok
    · exact h
  have h2 : (truthyS comment && uid.isNone) = false := by
    rcases Bool.eq_false_or_eq_true (truthyS comment && uid.isNone) with h | h
    · exfalso
      unfold postReview at hok
      rw [if_neg (by simp [h1]), if_pos h] at hok
      simp [Except.isOk, Except.toBool] at hok
    · exact h
  have h3 : (truthyS comment && decide (commentLen comment > 1000)) = false := by
    rcases Bool.eq_false_or_eq_true (truthyS comment && decide (commentLen comment > 1000))
      with h | h
    · exfalso
      unfold postReview at hok
      rw [if_neg (by simp [h1]), if_neg (by simp [h2]), if_pos h] at hok
      simp [Except.isOk, Except.toBool] at hok
    · exact h
  rcases hfs : findSite db cid with _ | s0
  · exfalso
    unfold postReview at hok
    rw [if_neg (by simp [h1]), if_neg (by simp [h2]), if_neg (by simp [h3]), hfs] at hok
    simp [Except.isOk, Except.toBool] at hok
  have h4 : (uid.isNone && rateLimitHit db cid ip now) = false := by
    rcases Bool.eq_false_or_eq_true (uid.isNone && rateLimitHit db cid ip now) with h | h
    · exfalso
      unfold postReview at hok
      rw [if_neg (by simp [h1]), if_neg (by simp [h2]), if_neg (by simp [h3]), hfs] at hok
      dsimp only at hok
      rw [if_pos h] at hok
      simp [Except.isOk, Except.toBool] at hok
    · exact h
  have hfs' : List.find? (fun s => s.id == cid) db.sites = some s0 := hfs
  have hfreshforall : ∀ r ∈ nonHiddenFor db cid, r.id ≠ fid := by
    intro r hr
    have hall := List.all_eq_true.mp hfresh r (List.mem_of_mem_filter hr)
    simpa [bne] using hall
  have hfilfresh : (nonHiddenFor db cid).filter (fun r => r.id != fid) = nonHiddenFor db cid :=
    sumRatings_filter_ne_of_fresh (nonHiddenFor db cid) fid hfreshforall
  rcases uid with _ | u
  · -- anonymous create
    have hcf : truthyS comment = false := by simpa using h2
    have hrl : rateLimitHit db cid ip now = false := by simpa using h4
    have hlen : (nonHiddenFor (postReview db cid rating comment none ip now fid).2 cid).length
        = (nonHiddenFor db cid).length + 1 := by
      simp only [postReview, h1, hcf, hfs, hrl, Option.isNone_none, Option.isNone_some, Option.isSome_none, Option.isSome_some, Bool.and_false, Bool.false_and, Bool.true_and, Bool.false_eq_true, if_false, if_true]
      show ((db.reviews ++ [({ id := fid, campsiteId := cid, userId := none, ipAddress := some ip, rating := rating.getD 0, comment := none, flagCount := 0, flags := [], hidden := false, createdAt := now, updatedAt := now } : Review)]).filter (fun r => r.campsiteId == cid && !r.hidden)).length = (db.reviews.filter (fun r => r.campsiteId == cid && !r.hidden)).length + 1
      rw [List.filter_append, List.length_append]
      simp
    have hsum : sumRatings (nonHiddenFor (postReview db cid rating comment none ip now fid).2 cid)
        = sumRatings (nonHiddenFor db cid) + rating.getD 0 := by
      simp only [postReview, h1, hcf, hfs, hrl, Option.isNone_none, Option.isNone_some, Option.isSome_none, Option.isSome_some, Bool.and_false, Bool.false_and, Bool.true_and, Bool.false_eq_true, if_false, if_true]
      show sumRatings ((db.reviews ++ [({ id := fid, campsiteId := cid, userId := none, ipAddress := some ip, rating := rating.getD 0, comment := none, flagCount := 0, flags := [], hidden := false, createdAt := now, updatedAt := now } : Review)]).filter (fun r => r.campsiteId == cid && !r.hidden)) = sumRatings (db.reviews.filter (fun r => r.campsiteId == cid && !r.hidden)) + rating.getD 0
      rw [List.filter_append, sumRatings_append]
      congr 1
      simp [sumRatings]
    have hstep1 : ((findSite (postReview db cid rating comment none ip now fid).2 cid).map
        Site.reviewCount) = some (some ((nonHiddenFor db cid).length + 1)) := by
      simp only [postReview, h1, hcf, hfs, hrl, Option.isNone_none, Option.isNone_some, Option.isSome_none, Option.isSome_some, Bool.and_false, Bool.false_and, Bool.true_and, Bool.false_eq_true, if_false, if_true]
      unfold findSite
      apply map_find?_proj_eq
      · show (List.find? (fun s => s.id == cid) db.sites).isSome = true
        rw [hfs']
        rfl
      · intro x hx
        exact ⟨hx, rfl⟩
    have hstep2 : ((findSite (postReview db cid rating comment none ip now fid).2 cid).map
        Site.averageRating) = some (some (round2 ((rating.getD 0 + sumRatings ((nonHiddenFor db cid).filter (fun r => r.id != fid))) / (((nonHiddenFor db cid).length + 1 : Nat) : ℚ)))) := by
      simp only [postReview, h1, hcf, hfs, hrl, Option.isNone_none, Option.isNone_some, Option.isSome_none, Option.isSome_some, Bool.and_false, Bool.false_and, Bool.true_and, Bool.false_eq_true, if_false, if_true]
      unfold findSite
      apply map_find?_proj_eq
      · show (List.find? (fun s => s.id == cid) db.sites).isSome = true
        rw [hfs']
        rfl
      · intro x hx
        exact ⟨hx, rfl⟩
    refine ⟨?_, ?_⟩
    · rw [hstep1, hlen]
    · rw [hstep2, hfilfresh, hsum, hlen,
        add_comm (sumRatings (nonHiddenFor db cid)) (rating.getD 0)]
  · -- identified: create or upsert
    rcases hfe : db.reviews.find? (fun r => r.campsiteId == cid && r.userId == some u)
      with _ | e
    · -- no existing review: create
      have hlen : (nonHiddenFor (postReview db cid rating comment (some u) ip now fid).2
          cid).length = (nonHiddenFor db cid).length + 1 := by
        simp only [postReview, h1, h3, hfs, hfe, Option.isNone_none, Option.isNone_some, Option.isSome_none, Option.isSome_some, Bool.and_false, Bool.false_and, Bool.true_and, Bool.false_eq_true, if_false, if_true]
        show ((db.reviews ++ [({ id := fid, campsiteId := cid, userId := some u, ipAddress := none, rating := rating.getD 0, comment := if truthyS comment then comment else none, flagCount := 0, flags := [], hidden := false, createdAt := now, updatedAt := now } : Review)]).filter (fun r => r.campsiteId == cid && !r.hidden)).length = (db.reviews.filter (fun r => r.campsiteId == cid && !r.hidden)).length + 1
        rw [List.filter_append, List.length_append]
        simp
      have hsum : sumRatings (nonHiddenFor (postReview db cid rating comment (some u) ip now
          fid).2 cid) = sumRatings (nonHiddenFor db cid) + rating.getD 0 := by
        simp only [postReview, h1, h3, hfs, hfe, Option.isNone_none, Option.isNone_some, Option.isSome_none, Option.isSome_some, Bool.and_false, Bool.false_and, Bool.true_and, Bool.false_eq_true, if_false, if_true]
        show sumRatings ((db.reviews ++ [({ id := fid, campsiteId := cid, userId := some u, ipAddress := none, rating := rating.getD 0, comment := if truthyS comment then comment else none, flagCount := 0, flags := [], hidden := false, createdAt := now, updatedAt := now } : Review)]).filter (fun r => r.campsiteId == cid && !r.hidden)) = sumRatings (db.reviews.filter (fun r => r.campsiteId == cid && !r.hidden)) + rating.getD 0
        rw [List.filter_append, sumRatings_append]
        congr 1
        simp [sumRatings]
      have hstep1 : ((findSite (postReview db cid rating comment (some u) ip now fid).2 cid).map
          Site.reviewCount) = some (some ((nonHiddenFor db cid).length + 1)) := by
        simp only [postReview, h1, h3, hfs, hfe, Option.isNone_none, Option.isNone_some, Option.isSome_none, Option.isSome_some, Bool.and_false, Bool.false_and, Bool.true_and, Bool.false_eq_true, if_false, if_true]
        unfold findSite
        apply map_find?_proj_eq
        · show (List.find? (fun s => s.id == cid) db.sites).isSome = true
          rw [hfs']
          rfl
        · intro x hx
          exact ⟨hx, rfl⟩
      have hstep2 : ((findSite (postReview db cid rating comment (some u) ip now fid).2 cid).map
          Site.averageRating) = some (some (round2 ((rating.getD 0 + sumRatings ((nonHiddenFor db cid).filter (fun r => r.id != fid))) / (((nonHiddenFor db cid).length + 1 : Nat) : ℚ)))) := by
        simp only [postReview, h1, h3, hfs, hfe, Option.isNone_none, Option.isNone_some, Option.isSome_none, Option.isSome_some, Bool.and_false, Bool.false_and, Bool.true_and, Bool.false_eq_true, if_false, if_true]
        unfold findSite
        apply map_find?_proj_eq
        · show (List.find? (fun s => s.id == cid) db.sites).isSome = true
          rw [hfs']
          rfl
        · intro x hx
          exact ⟨hx, rfl⟩
      refine ⟨?_, ?_⟩
      · rw [hstep1, hlen]
      · rw [hstep2, hfilfresh, hsum, hlen,
          add_comm (sumRatings (nonHiddenFor db cid)) (rating.getD 0)]
    · -- upsert over a live existing review
      have hemem : e ∈ db.reviews := List.mem_of_find?_eq_some hfe
      have hehid : e.hidden = false := by
        unfold existingNotHidden at hexn
        dsimp only at hexn
        rw [hfe] at hexn
        simpa using hexn
      have hecid : (e.campsiteId == cid) = true := by
        have h := List.find?_some hfe
        simp only [Bool.and_eq_true] at h
        exact h.1
      have hpe : (e.campsiteId == cid && !e.hidden) = true := by
        simp [hecid, hehid]
      have hfildb : db.reviews.filter (fun r => r.id == e.id) = [e] :=
        filter_id_single hnd hemem
      have hnds : ((db.reviews.filter (fun r => r.campsiteId == cid && !r.hidden)).map Review.id).Nodup :=
        ((List.filter_sublist _).map Review.id).nodup hnd
      have hes : e ∈ db.reviews.filter (fun r => r.campsiteId == cid && !r.hidden) :=
        List.mem_filter.mpr ⟨hemem, hpe⟩
      have hfilsnap : (db.reviews.filter (fun r => r.campsiteId == cid && !r.hidden)).filter (fun r => r.id == e.id) = [e] :=
        filter_id_single hnds hes
      have hswap : (db.reviews.map (fun r => if r.id == e.id then { id := e.id, campsiteId := cid, userId := some u, ipAddress := none, rating := rating.getD 0, comment := if truthyS comment then comment else none, flagCount := 0, flags := [], hidden := false, createdAt := r.createdAt, updatedAt := now } else r)).filter (fun r => r.campsiteId == cid && !r.hidden) = (db.reviews.filter (fun r => r.campsiteId == cid && !r.hidden)).map (fun r => if r.id == e.id then { id := e.id, campsiteId := cid, userId := some u, ipAddress := none, rating := rating.getD 0, comment := if truthyS comment then comment else none, flagCount := 0, flags := [], hidden := false, createdAt := r.createdAt, updatedAt := now } else r) :=
        filter_map_swap e (fun r => { id := e.id, campsiteId := cid, userId := some u, ipAddress := none, rating := rating.getD 0, comment := if truthyS comment then comment else none, flagCount := 0, flags := [], hidden := false, createdAt := r.createdAt, updatedAt := now }) (fun r => r.campsiteId == cid && !r.hidden) hpe (by simp) db.reviews hfildb
      have hrepl : sumRatings ((db.reviews.filter (fun r => r.campsiteId == cid && !r.hidden)).map (fun r => if r.id == e.id then { id := e.id, campsiteId := cid, userId := some u, ipAddress := none, rating := rating.getD 0, comment := if truthyS comment then comment else none, flagCount := 0, flags := [], hidden := false, createdAt := r.createdAt, updatedAt := now } else r)) = rating.getD 0 + sumRatings ((db.reviews.filter (fun r => r.campsiteId == cid && !r.hidden)).filter (fun r => r.id != e.id)) :=
        sumRatings_map_replace e (fun r => { id := e.id, campsiteId := cid, userId := some u, ipAddress := none, rating := rating.getD 0, comment := if truthyS comment then comment else none, flagCount := 0, flags := [], hidden := false, createdAt := r.createdAt, updatedAt := now }) (rating.getD 0) (fun r => rfl) (db.reviews.filter (fun r => r.campsiteId == cid && !r.hidden)) hfilsnap
      have hlen : (nonHiddenFor (postReview db cid rating comment (some u) ip now fid).2
          cid).length = (nonHiddenFor db cid).length := by
        simp only [postReview, h1, h3, hfs, hfe, Option.isNone_none, Option.isNone_some, Option.isSome_none, Option.isSome_some, Bool.and_false, Bool.false_and, Bool.true_and, Bool.false_eq_true, if_false, if_true]
        show ((db.reviews.map (fun r => if r.id == e.id then { id := e.id, campsiteId := cid, userId := some u, ipAddress := none, rating := rating.getD 0, comment := if truthyS comment then comment else none, flagCount := 0, flags := [], hidden := false, createdAt := r.createdAt, updatedAt := now } else r)).filter (fun r => r.campsiteId == cid && !r.hidden)).length = (db.reviews.filter (fun r => r.campsiteId == cid && !r.hidden)).length
        rw [hswap]
        exact List.length_map _ _
      have hsum : sumRatings (nonHiddenFor (postReview db cid rating comment (some u) ip now
          fid).2 cid) = rating.getD 0 + sumRatings ((nonHiddenFor db cid).filter
            (fun r => r.id != e.id)) := by
        simp only [postReview, h1, h3, hfs, hfe, Option.isNone_none, Option.isNone_some, Option.isSome_none, Option.isSome_some, Bool.and_false, Bool.false_and, Bool.true_and, Bool.false_eq_true, if_false, if_true]
        show sumRatings ((db.reviews.map (fun r => if r.id == e.id then { id := e.id, campsiteId := cid, userId := some u, ipAddress := none, rating := rating.getD 0, comment := if truthyS comment then comment else none, flagCount := 0, flags := [], hidden := false, createdAt := r.createdAt, updatedAt := now } else r)).filter (fun r => r.campsiteId == cid && !r.hidden)) = rating.getD 0 + sumRatings ((db.reviews.filter (fun r => r.campsiteId == cid && !r.hidden)).filter (fun r => r.id != e.id))
        rw [hswap]
        exact hrepl
      have hstep1 : ((findSite (postReview db cid rating comment (some u) ip now fid).2 cid).map
          Site.reviewCount) = some (some ((nonHiddenFor db cid).length)) := by
        simp only [postReview, h1, h3, hfs, hfe, Option.isNone_none, Option.isNone_some, Option.isSome_none, Option.isSome_some, Bool.and_false, Bool.false_and, Bool.true_and, Bool.false_eq_true, if_false, if_true]
        unfold findSite
        apply map_find?_proj_eq
        · show (List.find? (fun s => s.id == cid) db.sites).isSome = true
          rw [hfs']
          rfl
        · intro x hx
          exact ⟨hx, rfl⟩
      have hstep2 : ((findSite (postReview db cid rating comment (some u) ip now fid).2 cid).map
          Site.averageRating) = some (some (round2 ((rating.getD 0 + sumRatings ((nonHiddenFor db cid).filter (fun r => r.id != e.id))) / ((nonHiddenFor db cid).length : ℚ)))) := by
        simp only [postReview, h1, h3, hfs, hfe, Option.isNone_none, Option.isNone_some, Option.isSome_none, Option.isSome_some, Bool.and_false, Bool.false_and, Bool.true_and, Bool.false_eq_true, if_false, if_true]
        unfold findSite
        apply map_find?_proj_eq
        · show (List.find? (fun s => s.id == cid) db.sites).isSome = true
          rw [hfs']
          rfl
        · intro x hx
          exact ⟨hx, rfl⟩
      refine ⟨?_, ?_⟩
      · rw [hstep1, hlen]
      · rw [hstep2, hsum, hlen]

/-- C1 (witness): user 8 re-submits a rating for campsite 1 in `dbHidden`;
their existing review `liveReview` is not hidden, the fresh id 99 collides
with no stored review, and the call is accepted, so the amended invariant
gives: the written reviewCount equals the actual number of non-hidden
reviews for the site in the resulting store. -/
theorem C1_witness :
    (dbHidden.reviews.map Review.id).Nodup ∧
      (dbHidden.reviews.all (fun r => r.id != 99)) = true ∧
      existingNotHidden dbHidden 1 (some 8) = true ∧
      (postReview dbHidden 1 (some 3) none (some 8) "ip" 100 99).1.isOk = true ∧
      ((findSite (postReview dbHidden 1 (some 3) none (some 8) "ip" 100 99).2 1).map
          Site.reviewCount)
        = some (some ((nonHiddenFor
            (postReview dbHidden 1 (some 3) none (some 8) "ip" 100 99).2 1).length)) :=
  ⟨by decide, by decide, by decide, by decide,
    (C1_submit_aggregates dbHidden 1 (some 3) none (some 8) "ip" 100 99
      (by decide) (by decide) (by decide) (by decide)).1⟩

/-- C2 (counterexample): the claim says a Review that reached `hidden =
true` (flagCount 3) is never unhidden and its flagCount never reduced by any
operation, including a Submit upsert by its author.  But the Submit merge
payload always contains `hidden: false, flagCount: 0, flags: []`, so in
`dbHidden` — where review 10 is hidden with flagCount 3 — a re-submission by
its author (user 7) resets it to a live review with flagCount 0. -/
theorem C2_counterexample :
    ((dbHidden.reviews.find? (fun r => r.id == 10)).map
        (fun r => (r.hidden, r.flagCount))) = some (true, 3) ∧
      (((postReview dbHidden 1 (some 5) none (some 7) "ip" 100 99).2.reviews.find?
          (fun r => r.id == 10)).map (fun r => (r.hidden, r.flagCount))) = some (false, 0) := by
  refine ⟨by decide, by decide⟩

/-- C2 (amended): once hidden with `flagCount >= 3`, a Review stays hidden
under Update, Flag, and default listing: a PUT never changes the `id`,
`hidden`, or `flagCount` field of any stored review; a further Flag keeps
the review present, hidden, and increments its flagCount; and the default
listing only ever returns non-hidden reviews (every aggregate recomputation
similarly reads only the `hidden == false` query `nonHiddenFor`).  However,
a Submit upsert by the review's identified author resets `hidden` to false
and `flagCount` to 0 (see the counterexample), so the hidden state is not
irreversible. -/
theorem C2_hidden_persistence :
    (∀ db cid rid u rating comment now,
      (db.reviews.map Review.id).Nodup →
      ∀ d ∈ (putReviewSteps db cid rid u rating comment now).toOption.getD [],
        d.reviews.map (fun r => (r.id, r.hidden, r.flagCount))
          = db.reviews.map (fun r => (r.id, r.hidden, r.flagCount))) ∧
      (∀ db cid rid u reason now rev,
        db.reviews.find? (fun r => r.id == rid) = some rev →
        rev.hidden = true → 3 ≤ rev.flagCount →
        (flagReview db cid rid u reason now).isOk = true →
        ((flagReview db cid rid u reason now).toOption.map
            (fun pr => ((pr.2.reviews.find? (fun r => r.id == rid)).map
              (fun r => (r.hidden, r.flagCount)))))
          = some (some (true, rev.flagCount + 1))) ∧
      (∀ db cid page limit r, r ∈ listReviewsDefault db cid page limit →
        r.hidden = false) := by
  refine ⟨?_, ?_, ?_⟩
  · intro db cid rid u rating comment now hnd d hd
    unfold putReviewSteps at hd
    by_cases h1 : putRatingInvalid rating = true
    · rw [if_pos h1] at hd
      simp [Except.toOption] at hd
    rw [if_neg h1] at hd
    by_cases h2 : (truthyS comment && decide (commentLen comment > 1000)) = true
    · rw [if_pos h2] at hd
      simp [Except.toOption] at hd
    rw [if_neg h2] at hd
    rcases hfind : db.reviews.find? (fun r => r.id == rid) with _ | rev
    · rw [hfind] at hd
      simp [Except.toOption] at hd
    rw [hfind] at hd
    dsimp only at hd
    by_cases h3 : (rev.userId != some u) = true
    · rw [if_pos h3] at hd
      simp [Except.toOption] at hd
    rw [if_neg h3] at hd
    by_cases h4 : (rev.campsiteId != cid) = true
    · rw [if_pos h4] at hd
      simp [Except.toOption] at hd
    rw [if_neg h4] at hd
    have hrevmem : rev ∈ db.reviews := List.mem_of_find?_eq_some hfind
    have hrid : (rev.id == rid) = true := by
      have h := List.find?_some hfind
      simpa using h
    by_cases h5 : (rating.isSome && rating != some rev.rating) = true
    · rw [if_pos h5] at hd
      simp only [Except.toOption, Option.getD_some, List.mem_cons,
        List.not_mem_nil, or_false] at hd
      rcases hd with rfl | rfl
      · simp only [List.map_map]
        apply List.map_congr_left
        intro x hx
        simp only [Function.comp_apply]
        by_cases hxid : (x.id == rid) = true
        · rw [if_pos hxid]
          have hxrev : x = rev := by
            apply nodup_id_mem_eq hnd hx hrevmem
            have h1x : x.id = rid := by simpa using hxid
            have h2x : rev.id = rid := by simpa using hrid
            rw [h1x, h2x]
          subst hxrev
          rfl
        · rw [if_neg hxid]
      · simp only [List.map_map]
        apply List.map_congr_left
        intro x hx
        simp only [Function.comp_apply]
        by_cases hxid : (x.id == rid) = true
        · rw [if_pos hxid]
          have hxrev : x = rev := by
            apply nodup_id_mem_eq hnd hx hrevmem
            have h1x : x.id = rid := by simpa using hxid
            have h2x : rev.id = rid := by simpa using hrid
            rw [h1x, h2x]
          subst hxrev
          rfl
        · rw [if_neg hxid]
    · rw [if_neg h5] at hd
      simp only [Except.toOption, Option.getD_some, List.mem_singleton] at hd
      subst hd
      simp only [List.map_map]
      apply List.map_congr_left
      intro x hx
      simp only [Function.comp_apply]
      by_cases hxid : (x.id == rid) = true
      · rw [if_pos hxid]
        have hxrev : x = rev := by
          apply nodup_id_mem_eq hnd hx hrevmem
          have h1x : x.id = rid := by simpa using hxid
          have h2x : rev.id = rid := by simpa using hrid
          rw [h1x, h2x]
        subst hxrev
        rfl
      · rw [if_neg hxid]
  · intro db cid rid u reason now rev hfind hhid hge hok
    by_cases h1 : ((jsTrim reason).length == 0) = true
    · unfold flagReview at hok
      rw [if_pos h1] at hok
      simp [Except.isOk, Except.toBool] at hok
    by_cases h2 : (rev.campsiteId != cid) = true
    · unfold flagReview at hok
      rw [if_neg h1, hfind] at hok
      dsimp only at hok
      rw [if_pos h2] at hok
      simp [Except.isOk, Except.toBool] at hok
    by_cases h3 : (rev.flags.any (fun f => f.userId == u)) = true
    · unfold flagReview at hok
      rw [if_neg h1, hfind] at hok
      dsimp only at hok
      rw [if_neg h2, if_pos h3] at hok
      simp [Except.isOk, Except.toBool] at hok
    have hrid : (rev.id == rid) = true := by
      have h := List.find?_some hfind
      simpa using h
    have hsh : decide (rev.flagCount + 1 ≥ 3) = true := decide_eq_true (by omega)
    unfold flagReview
    rw [if_neg h1, hfind]
    dsimp only
    rw [if_neg h2, if_neg h3, hsh, if_pos rfl]
    simp only [Except.toOption, Option.map_some]
    refine congrArg some ?_
    apply map_find?_proj_eq
    · rw [hfind]
      rfl
    · intro x hx
      refine ⟨hrid, ?_⟩
      simp [hsh]
  · intro db cid page limit r hr
    unfold listReviewsDefault at hr
    have h1 : r ∈ stableSort (fun a b => decide (b.createdAt ≤ a.createdAt))
        (nonHiddenFor db cid) :=
      List.drop_subset _ _ (List.take_subset _ _ hr)
    have h2 := (mem_stableSort _ _ _).mp h1
    have h3 := List.of_mem_filter h2
    simp only [Bool.and_eq_true, Bool.not_eq_true'] at h3
    exact h3.2

/-- C2 (witness): against `dbHidden` — review 10 hidden with flagCount 3 —
the author's PUT preserves the moderation fields of every review, a fourth
flag keeps review 10 hidden with flagCount 4, and the default listing
returns only the live review. -/
theorem C2_witness :
    (dbHidden.reviews.map Review.id).Nodup ∧
      (putReviewSteps dbHidden 1 10 7 (some 5) none 50).isOk = true ∧
      ((((putReviewSteps dbHidden 1 10 7 (some 5) none 50).toOption.getD []).headD
          dbHidden).reviews.map (fun r => (r.id, r.hidden, r.flagCount)))
        = dbHidden.reviews.map (fun r => (r.id, r.hidden, r.flagCount)) ∧
      (flagReview dbHidden 1 10 24 "abuse" 9).isOk = true ∧
      ((flagReview dbHidden 1 10 24 "abuse" 9).toOption.map
          (fun pr => ((pr.2.reviews.find? (fun r => r.id == 10)).map
            (fun r => (r.hidden, r.flagCount)))))
        = some (some (true, 3 + 1)) ∧
      liveReview ∈ listReviewsDefault dbHidden 1 1 10 ∧
      liveReview.hidden = false := by
  refine ⟨by decide, by decide, ?_, by decide, ?_, by decide, ?_⟩
  · exact C2_hidden_persistence.1 dbHidden 1 10 7 (some 5) none 50 (by decide) _ (by decide)
  · exact C2_hidden_persistence.2.1 dbHidden 1 10 24 "abuse" 9 hiddenReview (by decide)
      (by decide) (by decide) (by decide)
  · exact C2_hidden_persistence.2.2 dbHidden 1 1 10 liveReview (by decide)

/-- C3 (counterexample): the claim says a reader can never observe the
updated Review rating together with the pre-update Site aggregate.  Against
`dbPut` (one review, rating 2, aggregate 2.00), the owner's PUT to rating 5
produces a trace of two separately committed states; in the first the review
already has rating 5 while the site aggregate is still the pre-update 2, and
a second commit follows. -/
theorem C3_counterexample :
    ((((putReviewSteps dbPut 1 10 7 (some 5) none 50).toOption.getD []).head?.map
        (fun d => ((d.reviews.find? (fun r => r.id == 10)).map Review.rating,
                   (d.sites.find? (fun s => s.id == 1)).map Site.averageRating))),
     ((putReviewSteps dbPut 1 10 7 (some 5) none 50).toOption.getD []).length)
    = (some (some 5, some (some 2)), 2) := by decide

/-- C3 (amended): when a PUT changes the rating, the review write
(`reviewRef.update`) and the aggregate recomputation (`runTransaction`) are
two separately committed atomic steps, not one transaction as in Submit:
after the first committed state the review carries the new rating while the
site documents are unchanged from the pre-call state, and only the second
(final) committed state carries the aggregate recomputed — rounded to two
decimals — from the non-hidden review set that includes the new rating. -/
theorem C3_update_two_steps (db : DB) (cid rid u : Nat) (q : ℚ) (comment : Option String)
    (now : Int) (rev : Review)
    (hfind : db.reviews.find? (fun r => r.id == rid) = some rev)
    (hchange : q ≠ rev.rating)
    (hok : (putReviewSteps db cid rid u (some q) comment now).isOk = true) :
    ((putReviewSteps db cid rid u (some q) comment now).toOption.getD []).length = 2 ∧
      (((putReviewSteps db cid rid u (some q) comment now).toOption.getD []).headD db).sites
        = db.sites ∧
      ((((putReviewSteps db cid rid u (some q) comment now).toOption.getD
          []).headD db).reviews.find? (fun r => r.id == rid)).isSome = true ∧
      (∀ r', (((putReviewSteps db cid rid u (some q) comment now).toOption.getD
          []).headD db).reviews.find? (fun r => r.id == rid) = some r' → r'.rating = q) ∧
      (∀ s, findSite (((putReviewSteps db cid rid u (some q) comment now).toOption.getD
            []).getLastD db) cid = some s →
        s.averageRating = some (round2 (sumRatings (nonHiddenFor (((putReviewSteps db cid rid u
          (some q) comment now).toOption.getD []).getLastD db) cid) /
            ((nonHiddenFor (((putReviewSteps db cid rid u (some q) comment
              now).toOption.getD []).getLastD db) cid).length : ℚ)))) := by
  have hrid : (rev.id == rid) = true := by
    have h := List.find?_some hfind
    simpa using h
  by_cases h1 : putRatingInvalid (some q) = true
  · unfold putReviewSteps at hok
    rw [if_pos h1] at hok
    simp [Except.isOk, Except.toBool] at hok
  by_cases h2 : (truthyS comment && decide (commentLen comment > 1000)) = true
  · unfold putReviewSteps at hok
    rw [if_neg h1, if_pos h2] at hok
    simp [Except.isOk, Except.toBool] at hok
  by_cases h3 : (rev.userId != some u) = true
  · unfold putReviewSteps at hok
    rw [if_neg h1, if_neg h2, hfind] at hok
    dsimp only at hok
    rw [if_pos h3] at hok
    simp [Except.isOk, Except.toBool] at hok
  by_cases h4 : (rev.campsiteId != cid) = true
  · unfold putReviewSteps at hok
    rw [if_neg h1, if_neg h2, hfind] at hok
    dsimp only at hok
    rw [if_neg h3, if_pos h4] at hok
    simp [Except.isOk, Except.toBool] at hok
  have h5 : ((some q : Option ℚ).isSome && ((some q : Option ℚ) != some rev.rating)) = true := by
    simp [bne, hchange]
  unfold putReviewSteps
  rw [if_neg h1, if_neg h2, hfind]
  dsimp only
  rw [if_neg h3, if_neg h4, if_pos h5]
  simp only [Except.toOption, Option.getD_some, List.length_cons,
    List.headD_cons, List.getLastD_cons]
  refine ⟨by trivial, by trivial, ?_, ?_, ?_⟩
  · apply find?_isSome_map_ite
    · intro x hx
      exact hrid
    · rw [hfind]
      rfl
  · intro r' hr'
    obtain ⟨x, hxmem, hpx, rfl⟩ := find?_map_ite_image _ _ _ _ hr'
    rfl
  · intro s hs
    unfold findSite at hs
    obtain ⟨x, hxmem, hpx, rfl⟩ := find?_map_ite_image _ _ _ _ hs
    show some _ = some _
    congr 2
    congr 1
    · apply sum_subst_eq
      intro r hr hid
      have hr2 := List.mem_of_mem_filter hr
      simp only [List.mem_map] at hr2
      obtain ⟨y, hy, hyr⟩ := hr2
      by_cases hyid : (y.id == rid) = true
      · rw [if_pos hyid] at hyr
        rw [← hyr]
      · rw [if_neg hyid] at hyr
        rw [← hyr] at hid
        exact absurd hid (by simp [hyid])

/-- C3 (witness): the owner of `putRev` PUTs rating 5 against `dbPut`; the
trace has two committed states, the first of which leaves the site documents
untouched while already carrying the updated rating. -/
theorem C3_witness :
    dbPut.reviews.find? (fun r => r.id == 10) = some putRev ∧
      (5 : ℚ) ≠ putRev.rating ∧
      (putReviewSteps dbPut 1 10 7 (some 5) none 50).isOk = true ∧
      ((putReviewSteps dbPut 1 10 7 (some 5) none 50).toOption.getD []).length = 2 ∧
      (((putReviewSteps dbPut 1 10 7 (some 5) none 50).toOption.getD []).headD dbPut).sites
        = dbPut.sites ∧
      ((((putReviewSteps dbPut 1 10 7 (some 5) none 50).toOption.getD
          []).headD dbPut).reviews.find? (fun r => r.id == 10)).isSome = true ∧
      ({ putRev with rating := 5, updatedAt := 50 } : Review).rating = 5 := by
  have h := C3_update_two_steps dbPut 1 10 7 5 none 50 putRev (by decide) (by decide) (by decide)
  refine ⟨by decide, by decide, by decide, h.1, h.2.1, h.2.2.1, ?_⟩
  exact h.2.2.2.1 _ (by decide)

/-- C4 (counterexample): the claim says Update rejects any supplied rating
outside [1,5], including 0, before writing.  But the PUT guard is
`rating && (!Number.isInteger(rating) || ...)`, and `0` is falsy, so a
supplied rating of 0 skips validation; `rating !== undefined` then writes
it.  Against `dbPut`, the owner's PUT with rating 0 succeeds and the stored
review ends with rating 0, which is not an integer in [1,5]. -/
theorem C4_counterexample :
    (putReviewSteps dbPut 1 10 7 (some 0) none 50).isOk = true ∧
      ((putReviewSteps dbPut 1 10 7 (some 0) none 50).toOption.getD []).getLast?.bind
          (fun d => (d.reviews.find? (fun r => r.id == 10)).map Review.rating) = some 0 ∧
      ratingOk 0 = false := by
  refine ⟨by decide, by decide, by decide⟩

/-- C4 (amended): Submit rejects every supplied rating that is not an
integer in [1,5]; Update rejects every supplied nonzero rating that is not
an integer in [1,5], but a supplied rating of 0 bypasses the check and is
persisted.  Consequently the stored-rating invariant that both operations
maintain is: every stored rating is an integer in [1,5] or the value 0
(the latter producible only through Update). -/
theorem C4_rating_validation :
    (∀ q : ℚ, ratingInvalid (some q) = false → ratingOk q = true) ∧
      (∀ q : ℚ, q ≠ 0 → putRatingInvalid (some q) = false → ratingOk q = true) ∧
      (∀ db cid rating comment uid ip now fid,
        (∀ r ∈ db.reviews, ratingOk r.rating = true ∨ r.rating = 0) →
        ∀ r ∈ (postReview db cid rating comment uid ip now fid).2.reviews,
          ratingOk r.rating = true ∨ r.rating = 0) ∧
      (∀ db cid rid u rating comment now,
        (∀ r ∈ db.reviews, ratingOk r.rating = true ∨ r.rating = 0) →
        ∀ d ∈ (putReviewSteps db cid rid u rating comment now).toOption.getD [],
          ∀ r ∈ d.reviews, ratingOk r.rating = true ∨ r.rating = 0) := by
  refine ⟨ratingInvalid_false_ok, putRatingInvalid_false_ok, ?_, ?_⟩
  · intro db cid rating comment uid ip now fid hinv r hr
    rcases postReview_reviews_ratings db cid rating comment uid ip now fid r hr with
      hmem | ⟨hvalr, hrat⟩
    · exact hinv r hmem
    · cases rating with
      | none => simp [ratingInvalid] at hvalr
      | some q => exact Or.inl (by rw [hrat]; exact ratingInvalid_false_ok q hvalr)
  · intro db cid rid u rating comment now hinv d hd r hr
    rcases putReviewSteps_reviews_ratings db cid rid u rating comment now d hd r hr with
      hmem | ⟨hval, q, hqeq, hrq⟩ | ⟨e, he, hre⟩
    · exact hinv r hmem
    · by_cases hq0 : q = 0
      · exact Or.inr (by rw [hrq, hq0])
      · subst hqeq
        exact Or.inl (by rw [hrq]; exact putRatingInvalid_false_ok q hq0 hval)
    · rw [hre]
      exact hinv e he

/-- C4 (witness): concrete instances — rating 5 passes Submit validation and
is in range, rating 2 passes PUT validation, and the PUT preservation
statement applied to `dbPut` with supplied rating 0 covers the review stored
by the first committed state. -/
theorem C4_witness :
    ratingInvalid (some 5) = false ∧ ratingOk 5 = true ∧
      putRatingInvalid (some 2) = false ∧ ratingOk 2 = true ∧
      dbPut.reviews.all (fun r => ratingOk r.rating || r.rating == 0) = true ∧
      (ratingOk (((((putReviewSteps dbPut 1 10 7 (some 0) none 50).toOption.getD
            []).headD dbPut).reviews.headD putRev).rating) = true ∨
        ((((putReviewSteps dbPut 1 10 7 (some 0) none 50).toOption.getD
            []).headD dbPut).reviews.headD putRev).rating = 0) := by
  refine ⟨by decide, C4_rating_validation.1 5 (by decide),
    by decide, C4_rating_validation.2.1 2 (by decide) (by decide),
    by decide, ?_⟩
  exact C4_rating_validation.2.2.2 dbPut 1 10 7 (some 0) none 50
    (by decide)
    (((putReviewSteps dbPut 1 10 7 (some 0) none 50).toOption.getD []).headD dbPut)
    (by decide)
    _ (by decide)

/-- C7: two anonymous Submit calls from the same origin address to the same
existing campsite, the second strictly within 24 hours of the first accepted
one: the first succeeds (and records a rate-limit ledger entry), and the
second fails with the rate-limited error and returns the store exactly as
the first call left it — no review write and no aggregate change. -/
theorem C7_anonymous_rate_limited (db : DB) (cid : Nat) (r1 r2 : Option ℚ) (ip : String)
    (t0 t1 : Int) (fid1 fid2 : Nat)
    (hr1 : ratingInvalid r1 = false) (hr2 : ratingInvalid r2 = false)
    (hsite : (findSite db cid).isSome = true)
    (hnolim : rateLimitHit db cid ip t0 = false)
    (hwin : t1 - msPerDay < t0) :
    (postReview db cid r1 none none ip t0 fid1).1.isOk = true ∧
      postReview (postReview db cid r1 none none ip t0 fid1).2 cid r2 none none ip t1 fid2
        = (Except.error ReviewError.rateLimited,
           (postReview db cid r1 none none ip t0 fid1).2) := by
  obtain ⟨s, hs⟩ := Option.isSome_iff_exists.mp hsite
  obtain ⟨hok1, hledger, g, hgid, hsites⟩ :=
    postReview_anon_shape db cid r1 ip t0 fid1 s hr1 hs hnolim
  refine ⟨by rw [hok1]; rfl, ?_⟩
  have hsite2 : findSite (postReview db cid r1 none none ip t0 fid1).2 cid = some (g s) := by
    unfold findSite at hs ⊢
    rw [hsites, find?_map_pres g _ (fun x => by rw [hgid x]), hs]
    rfl
  have hrl2 : rateLimitHit (postReview db cid r1 none none ip t0 fid1).2 cid ip t1 = true := by
    unfold rateLimitHit
    rw [hledger, List.any_append]
    have hentry : (decide (t0 > t1 - msPerDay)) = true := decide_eq_true hwin
    simp [hentry]
  generalize hD : (postReview db cid r1 none none ip t0 fid1).2 = D1 at hsite2 hrl2 ⊢
  simp only [postReview, hr2, hsite2, hrl2, truthyS, Option.isNone_none, Bool.false_eq_true,
    if_false, Bool.false_and, Bool.and_false, Bool.true_and, Bool.and_true, if_true]

/-- C7 (witness): concrete anonymous double submission against `dbEmptySite`
at times 1000 and 2000 from origin address 1.2.3.4. -/
theorem C7_witness :
    ratingInvalid (some 5) = false ∧ ratingInvalid (some 3) = false ∧
      (findSite dbEmptySite 1).isSome = true ∧
      rateLimitHit dbEmptySite 1 "1.2.3.4" 1000 = false ∧
      (2000 : Int) - msPerDay < 1000 ∧
      (postReview dbEmptySite 1 (some 5) none none "1.2.3.4" 1000 40).1.isOk = true ∧
      postReview (postReview dbEmptySite 1 (some 5) none none "1.2.3.4" 1000 40).2
          1 (some 3) none none "1.2.3.4" 2000 41
        = (Except.error ReviewError.rateLimited,
           (postReview dbEmptySite 1 (some 5) none none "1.2.3.4" 1000 40).2) := by
  have h := C7_anonymous_rate_limited dbEmptySite 1 (some 5) (some 3) "1.2.3.4" 1000 2000 40 41
    (by decide) (by decide) (by decide) (by decide) (by decide)
  exact ⟨by decide, by decide, by decide, by decide, by decide, h.1, h.2⟩

/-- C8: when an identified user submits a review for a campsite where a
Review keyed by that (site, user) pair already exists, the call updates that
existing Review in place — the result reports the same review id with
`isUpdate`, the number of stored Review documents does not change, the
stored record keeps its id and creation time while carrying the new rating,
comment, and update timestamp — and the written `reviewCount` equals the
pre-call count of non-hidden reviews, so a consistent Site's reviewCount
does not increase. -/
theorem C8_identified_upsert (db : DB) (cid u : Nat) (rating : Option ℚ)
    (comment : Option String) (ip : String) (now : Int) (fid : Nat) (e : Review) (s : Site)
    (hnd : (db.reviews.map Review.id).Nodup)
    (hfind : db.reviews.find? (fun r => r.campsiteId == cid && r.userId == some u) = some e)
    (hsite : findSite db cid = some s)
    (hcons : s.reviewCount = some ((nonHiddenFor db cid).length))
    (hr : ratingInvalid rating = false)
    (hc : (truthyS comment && decide (commentLen comment > 1000)) = false) :
    (postReview db cid rating comment (some u) ip now fid).1
        = Except.ok { reviewId := e.id, isUpdate := true } ∧
      (postReview db cid rating comment (some u) ip now fid).2.reviews.length
        = db.reviews.length ∧
      ((postReview db cid rating comment (some u) ip now fid).2.reviews.find?
          (fun r => r.id == e.id)).isSome = true ∧
      (∀ r', (postReview db cid rating comment (some u) ip now fid).2.reviews.find?
          (fun r => r.id == e.id) = some r' →
        r'.id = e.id ∧ r'.createdAt = e.createdAt ∧ r'.updatedAt = now ∧
          r'.rating = rating.getD 0 ∧
          r'.comment = (if truthyS comment then comment else none)) ∧
      ((findSite (postReview db cid rating comment (some u) ip now fid).2 cid).map
          Site.reviewCount) = some s.reviewCount := by
  have hemem : e ∈ db.reviews := List.mem_of_find?_eq_some hfind
  have heid : db.reviews.find? (fun r => r.id == e.id) = some e := find?_id_of_nodup hnd hemem
  simp only [postReview, hr, hc, hsite, hfind, Option.isNone_some, Bool.and_false,
    Bool.false_and, Bool.false_eq_true, if_false, Option.isSome_some, if_true]
  refine ⟨by trivial, ?_, ?_, ?_, ?_⟩
  · exact List.length_map _ _
  · apply find?_isSome_map_ite
    · intro x hx
      simp
    · rw [heid]
      rfl
  · intro r' hr'
    obtain ⟨x, hxmem, hpx, rfl⟩ := find?_map_ite_image _ _ _ _ hr'
    have hxe : x = e := by
      apply nodup_id_mem_eq hnd hxmem hemem
      simpa using hpx
    subst hxe
    exact ⟨rfl, rfl, rfl, rfl, rfl⟩
  · unfold findSite
    apply map_find?_proj_eq
    · unfold findSite at hsite
      rw [hsite]
      rfl
    · intro x hx
      exact ⟨hx, hcons.symm⟩

/-- C8 (witness): user 8 resubmits a rating for campsite 1 in `dbHidden`,
where their review `liveReview` already exists: the call reports an update
of the same id, adds no review document, and leaves the written reviewCount
equal to the site's consistent pre-call count. -/
theorem C8_witness :
    (dbHidden.reviews.map Review.id).Nodup ∧
      dbHidden.reviews.find? (fun r => r.campsiteId == 1 && r.userId == some 8)
        = some liveReview ∧
      findSite dbHidden 1 = some siteOne ∧
      siteOne.reviewCount = some ((nonHiddenFor dbHidden 1).length) ∧
      ratingInvalid (some 3) = false ∧
      (truthyS none && decide (commentLen none > 1000)) = false ∧
      (postReview dbHidden 1 (some 3) none (some 8) "ip" 100 99).1
        = Except.ok { reviewId := liveReview.id, isUpdate := true } ∧
      (postReview dbHidden 1 (some 3) none (some 8) "ip" 100 99).2.reviews.length
        = dbHidden.reviews.length ∧
      ((findSite (postReview dbHidden 1 (some 3) none (some 8) "ip" 100 99).2 1).map
          Site.reviewCount) = some siteOne.reviewCount := by
  have h := C8_identified_upsert dbHidden 1 8 (some 3) none "ip" 100 99 liveReview siteOne
    (by decide) (by decide) (by decide) (by decide) (by decide) (by decide)
  exact ⟨by decide, by decide, by decide, by decide, by decide, by decide,
    h.1, h.2.1, h.2.2.2.2⟩

/-- C9: the three non-geographic client-side filters (minimum rating,
photo presence, text match) are pointwise predicates on a candidate, and the
final result set does not depend on the order in which the three narrowing
passes are applied: all six orders produce the same list as the source order
(minRating, then photos, then text). -/
theorem C9_filter_order_independent (mr : Option ℚ) (hp : Bool) (q : Option String)
    (l : List Campsite) :
    applyTextFilter q (applyPhotoFilter hp (applyMinRatingFilter mr l))
        = applyTextFilter q (applyMinRatingFilter mr (applyPhotoFilter hp l)) ∧
      applyTextFilter q (applyPhotoFilter hp (applyMinRatingFilter mr l))
        = applyPhotoFilter hp (applyTextFilter q (applyMinRatingFilter mr l)) ∧
      applyTextFilter q (applyPhotoFilter hp (applyMinRatingFilter mr l))
        = applyPhotoFilter hp (applyMinRatingFilter mr (applyTextFilter q l)) ∧
      applyTextFilter q (applyPhotoFilter hp (applyMinRatingFilter mr l))
        = applyMinRatingFilter mr (applyTextFilter q (applyPhotoFilter hp l)) ∧
      applyTextFilter q (applyPhotoFilter hp (applyMinRatingFilter mr l))
        = applyMinRatingFilter mr (applyPhotoFilter hp (applyTextFilter q l)) := by
  simp only [applyMinRatingFilter_eq_filter, applyPhotoFilter_eq_filter,
    applyTextFilter_eq_filter]
  refine ⟨?_, ?_, ?_, ?_, ?_⟩
  · rw [filter_filter_comm (minRatingPred mr) (photoPred hp) l]
  · rw [filter_filter_comm (photoPred hp) (textPred q) (l.filter (minRatingPred mr))]
  · rw [filter_filter_comm (photoPred hp) (textPred q) (l.filter (minRatingPred mr)),
      filter_filter_comm (minRatingPred mr) (textPred q) l]
  · rw [filter_filter_comm (minRatingPred mr) (photoPred hp) l,
      filter_filter_comm (minRatingPred mr) (textPred q) (l.filter (photoPred hp))]
  · rw [filter_filter_comm (minRatingPred mr) (photoPred hp) l,
      filter_filter_comm (minRatingPred mr) (textPred q) (l.filter (photoPred hp)),
      filter_filter_comm (photoPred hp) (textPred q) l]

/-- C10: whenever a `minRating` value is supplied to search — the route
tests only string truthiness, so this includes the threshold `0` — any
campsite whose `averageRating` is absent, `null`, or `0` fails the filter
`campsite.averageRating && campsite.averageRating >= minRatingValue` and is
excluded from the final search results. -/
theorem C10_unrated_excluded (v : ℚ) (hp : Bool) (q : Option String) (sort : String)
    (hasGeo : Bool) (page limit : Nat) (l : List Campsite) (c : Campsite)
    (hc : c.averageRating = none ∨ c.averageRating = some 0) :
    c ∉ searchFilterSort (some v) hp q sort hasGeo page limit l := by
  intro hmem
  have h1 := mem_searchFilterSort hmem
  rw [applyMinRatingFilter_eq_filter] at h1
  have h2 := List.of_mem_filter h1
  rcases hc with hc | hc <;> simp [minRatingPred, hc] at h2

/-- C10 (witness): the unrated campsite `campUnrated` is excluded by a
supplied threshold of `0`. -/
theorem C10_witness :
    (campUnrated.averageRating = none ∨ campUnrated.averageRating = some 0) ∧
      campUnrated ∉ searchFilterSort (some 0) false none "newest" false 1 20 [campUnrated] :=
  ⟨Or.inl rfl,
    C10_unrated_excluded 0 false none "newest" false 1 20 [campUnrated] campUnrated
      (Or.inl rfl)⟩

end DispersedApi
